import Mathlib

/-
Verification of the SPDX presenter (internal/presenter/packages/spdx_presenter.go).

The presenter turns a catalog of packages into an SPDX 2.2 document and hands it
to a tag-value encoder.  External collaborators (the license-identifier lookup,
the build/version metadata, the wall clock, and the output sink) are threaded
through as explicit parameters.  Go maps keyed by element identifiers are
modelled as key-unique association lists where inserting an existing key
replaces the previous binding (Go map assignment semantics); Go map iteration
order is unobservable in the properties below.
-/

namespace SpdxPresenter

/-- SPDX element identifiers (spdx.ElementID) are strings. -/
abbrev ElementID := String

/-- Result of the external license lookup (go-spdx License call): carries the
canonical SPDX identifier. -/
structure LicenseInfo where
  ID : String
deriving DecidableEq, Repr

/-- The package metadata payload: it either implements the pkg.FileOwner
interface (exposing OwnedFiles) or it does not. -/
inductive PkgMetadata where
  | fileOwner (ownedFiles : List String)
  | other
deriving DecidableEq, Repr

/-- A catalog package (pkg.Package): type tag, name, version, raw license
strings, and the metadata payload. -/
structure Package where
  typ : String
  Name : String
  Version : String
  Licenses : List String
  Metadata : PkgMetadata
deriving DecidableEq, Repr

/-- Source metadata image information (source.Metadata.ImageMetadata). -/
structure ImageMetadata where
  UserInput : String
deriving DecidableEq, Repr

/-- Source metadata (source.Metadata). -/
structure SourceMetadata where
  ImageMetadata : ImageMetadata
deriving DecidableEq, Repr

/-- A Go map keyed by ElementID, modelled as an association list whose keys are
kept unique by the insertion operation. -/
abbrev SPDXMap (β : Type) := List (ElementID × β)

/-- Go map assignment m[k] = v: any existing binding of k is replaced. -/
def mapSet {β : Type} (m : SPDXMap β) (k : ElementID) (v : β) : SPDXMap β :=
  m.filter (fun kv => kv.1 != k) ++ [(k, v)]

/-- Go map lookup m[k]. -/
def mapGet {β : Type} (m : SPDXMap β) (k : ElementID) : Option β :=
  match m with
  | [] => none
  | kv :: rest => if kv.1 = k then some kv.2 else mapGet rest k

/-- The key set of a map. -/
def mapKeys {β : Type} (m : SPDXMap β) : List ElementID :=
  m.map (fun kv => kv.1)

/-- An SPDX 2.2 file record (spdx.File2_2), with exactly the fields the
presenter populates. -/
structure File2_2 where
  FileName : String
  FileSPDXIdentifier : ElementID
  FileType : List String
  FileChecksumSHA1 : String
  FileChecksumSHA256 : String
  FileChecksumMD5 : String
  LicenseConcluded : String
  LicenseInfoInFile : List String
  LicenseComments : String
  FileCopyrightText : String
  ArtifactOfProjects : List String
  FileComment : String
  FileNotice : String
  FileContributor : List String
  FileAttributionTexts : List String
  FileDependencies : List String
  Snippets : List String
deriving DecidableEq, Repr

/-- An SPDX 2.2 package record (spdx.Package2_2), with exactly the fields the
presenter populates. -/
structure Package2_2 where
  IsUnpackaged : Bool
  PackageName : String
  PackageSPDXIdentifier : ElementID
  PackageVersion : String
  PackageFileName : String
  PackageSupplierPerson : String
  PackageSupplierOrganization : String
  PackageSupplierNOASSERTION : Bool
  PackageOriginatorPerson : String
  PackageOriginatorOrganization : String
  PackageOriginatorNOASSERTION : Bool
  PackageDownloadLocation : String
  FilesAnalyzed : Bool
  IsFilesAnalyzedTagPresent : Bool
  PackageVerificationCode : String
  PackageVerificationCodeExcludedFile : String
  PackageChecksumSHA1 : String
  PackageChecksumSHA256 : String
  PackageChecksumMD5 : String
  PackageHomePage : String
  PackageSourceInfo : String
  PackageLicenseConcluded : String
  PackageLicenseInfoFromFiles : List String
  PackageLicenseDeclared : String
  PackageLicenseComments : String
  PackageCopyrightText : String
  PackageSummary : String
  PackageDescription : String
  PackageComment : String
  PackageExternalReferences : List String
  PackageAttributionTexts : List String
  Files : SPDXMap File2_2
deriving DecidableEq, Repr

/-- SPDX 2.2 creation info (spdx.CreationInfo2_2). -/
structure CreationInfo2_2 where
  SPDXVersion : String
  DataLicense : String
  SPDXIdentifier : ElementID
  DocumentName : String
  DocumentNamespace : String
  ExternalDocumentReferences : List String
  LicenseListVersion : String
  CreatorPersons : List String
  CreatorOrganizations : List String
  CreatorTools : List String
  Created : String
  CreatorComment : String
  DocumentComment : String
deriving DecidableEq, Repr

/-- An SPDX 2.2 document (spdx.Document2_2): creation info plus the package
map. -/
structure Document2_2 where
  CreationInfo : CreationInfo2_2
  Packages : SPDXMap Package2_2
deriving DecidableEq, Repr

/-- Identifier synthesis from SPDXPresenter.packages:
fmt.Sprintf("Package-%+v-%s", p.Type, p.Name). -/
def packageID (p : Package) : ElementID :=
  "Package-" ++ p.typ ++ "-" ++ p.Name

/-- The license classification from SPDXPresenter.packages: start at "NONE";
when licenses are present, look up only the first; a lookup failure downgrades
to "NOASSERTION", a success yields the canonical ID. -/
def declaredLicense (lookup : String → Option LicenseInfo) (p : Package) : String :=
  match p.Licenses with
  | [] => "NONE"
  | l :: _ =>
    match lookup l with
    | none => "NOASSERTION"
    | some licenseInfo => licenseInfo.ID

/-- The file record built for one owned path f in SPDXPresenter.packageFiles. -/
def spdxFile (f : String) : File2_2 :=
  { FileName := f
    FileSPDXIdentifier := f
    FileType := []
    FileChecksumSHA1 := ""
    FileChecksumSHA256 := ""
    FileChecksumMD5 := ""
    LicenseConcluded := "NOASSERTION"
    LicenseInfoInFile := ["NOASSERTION"]
    LicenseComments := ""
    FileCopyrightText := "NOASSERTION"
    ArtifactOfProjects := []
    FileComment := ""
    FileNotice := ""
    FileContributor := []
    FileAttributionTexts := []
    FileDependencies := []
    Snippets := [] }

/-- SPDXPresenter.packageFiles: filesAnalyzed is true exactly when the metadata
implements FileOwner; the file map gets one entry per owned path. -/
def packageFiles (p : Package) : Bool × SPDXMap File2_2 :=
  match p.Metadata with
  | PkgMetadata.fileOwner owned =>
    (true, owned.foldl (fun files f => mapSet files f (spdxFile f)) [])
  | PkgMetadata.other => (false, [])

/-- The package record built for one catalog package in
SPDXPresenter.packages. -/
def spdxPackage (lookup : String → Option LicenseInfo) (p : Package) : Package2_2 :=
  let id := packageID p
  let license := declaredLicense lookup p
  let fa := packageFiles p
  { IsUnpackaged := false
    PackageName := p.Name
    PackageSPDXIdentifier := id
    PackageVersion := p.Version
    PackageFileName := ""
    PackageSupplierPerson := ""
    PackageSupplierOrganization := ""
    PackageSupplierNOASSERTION := false
    PackageOriginatorPerson := ""
    PackageOriginatorOrganization := ""
    PackageOriginatorNOASSERTION := false
    PackageDownloadLocation := "NOASSERTION"
    FilesAnalyzed := fa.1
    IsFilesAnalyzedTagPresent := true
    PackageVerificationCode := ""
    PackageVerificationCodeExcludedFile := ""
    PackageChecksumSHA1 := ""
    PackageChecksumSHA256 := ""
    PackageChecksumMD5 := ""
    PackageHomePage := ""
    PackageSourceInfo := ""
    PackageLicenseConcluded := "NOASSERTION"
    PackageLicenseInfoFromFiles := []
    PackageLicenseDeclared := license
    PackageLicenseComments := ""
    PackageCopyrightText := "NOASSERTION"
    PackageSummary := ""
    PackageDescription := ""
    PackageComment := ""
    PackageExternalReferences := []
    PackageAttributionTexts := []
    Files := fa.2 }

/-- SPDXPresenter.packages: fold the catalog into the identifier-keyed package
map. -/
def packages (lookup : String → Option LicenseInfo) (catalog : List Package) :
    SPDXMap Package2_2 :=
  catalog.foldl (fun results p => mapSet results (packageID p) (spdxPackage lookup p)) []

/-- The document built by SPDXPresenter.Present.  appName stands for
internal.ApplicationName, versionStr for version.FromBuild().Version, created
for time.Now().Format(time.RFC3339). -/
def spdxDocument (appName versionStr created : String) (srcMetadata : SourceMetadata)
    (lookup : String → Option LicenseInfo) (catalog : List Package) : Document2_2 :=
  { CreationInfo :=
    { SPDXVersion := "SPDX-2.2"
      DataLicense := "CC0-1.0"
      SPDXIdentifier := "DOCUMENT"
      DocumentName := srcMetadata.ImageMetadata.UserInput
      DocumentNamespace := "https://anchore.com/syft/image/" ++ srcMetadata.ImageMetadata.UserInput
      ExternalDocumentReferences := []
      LicenseListVersion := ""
      CreatorPersons := []
      CreatorOrganizations := ["Anchore, Inc"]
      CreatorTools := [appName ++ "-" ++ versionStr]
      Created := created
      CreatorComment := ""
      DocumentComment := "" }
    Packages := packages lookup catalog }

/-- Spec-side combinator: the given document with only its creation timestamp
replaced, used to state that two runs differ at most in the timestamp. -/
def withCreated (d : Document2_2) (created : String) : Document2_2 :=
  { d with CreationInfo := { d.CreationInfo with Created := created } }

/-- SPDXPresenter.Present: build the document and hand it to the tag-value
saver (tvsaver.Save2_2), whose result is the result of the call. -/
def Present (appName versionStr created : String) (srcMetadata : SourceMetadata)
    (lookup : String → Option LicenseInfo) (catalog : List Package)
    (save : Document2_2 → Except String Unit) : Except String Unit :=
  save (spdxDocument appName versionStr created srcMetadata lookup catalog)

/-- Setting a key and reading it back yields the new value. -/
theorem mapGet_mapSet_self {β : Type} (m : SPDXMap β) (k : ElementID) (v : β) :
    mapGet (mapSet m k v) k = some v := by
  induction m with
  | nil => simp [mapSet, mapGet]
  | cons kv rest ih =>
    by_cases h : kv.1 = k
    · simpa [mapSet, h] using ih
    · simpa [mapSet, mapGet, h, List.filter_cons] using ih

/-- Setting one key leaves lookups of other keys unchanged. -/
theorem mapGet_mapSet_ne {β : Type} (m : SPDXMap β) (k k2 : ElementID) (v : β)
    (h : k2 ≠ k) : mapGet (mapSet m k v) k2 = mapGet m k2 := by
  have h2 : ¬ k = k2 := fun hk => h hk.symm
  induction m with
  | nil => simp [mapSet, mapGet, h2]
  | cons kv rest ih =>
    by_cases hk : kv.1 = k
    · simpa [mapSet, mapGet, hk, h2, List.filter_cons] using ih
    · by_cases hx : kv.1 = k2
      · simp [mapSet, mapGet, hk, hx, h, List.filter_cons]
      · simpa [mapSet, mapGet, hk, hx, List.filter_cons] using ih

/-- A present key stays present after any set. -/
theorem isSome_mapGet_mapSet {β : Type} (m : SPDXMap β) (k k2 : ElementID) (v : β)
    (h : (mapGet m k2).isSome = true) : (mapGet (mapSet m k v) k2).isSome = true := by
  by_cases hk : k2 = k
  · subst hk
    simp [mapGet_mapSet_self]
  · rwa [mapGet_mapSet_ne m k k2 v hk]

/-- Setting a key preserves key uniqueness of the map. -/
theorem nodup_mapKeys_mapSet {β : Type} (m : SPDXMap β) (k : ElementID) (v : β)
    (h : (mapKeys m).Nodup) : (mapKeys (mapSet m k v)).Nodup := by
  have hsub : List.Sublist ((m.filter (fun kv => kv.1 != k)).map (fun kv => kv.1))
      (m.map (fun kv => kv.1)) :=
    (List.filter_sublist m).map _
  have hnd : ((m.filter (fun kv => kv.1 != k)).map (fun kv => kv.1)).Nodup :=
    h.sublist hsub
  have hknot : k ∉ (m.filter (fun kv => kv.1 != k)).map (fun kv => kv.1) := by
    intro hk
    rcases List.mem_map.mp hk with ⟨kv, hmem, hfst⟩
    have := (List.mem_filter.mp hmem).2
    simp only [bne_iff_ne, ne_eq, decide_eq_true_eq] at this
    exact this hfst
  simp only [mapKeys, mapSet, List.map_append, List.map_cons, List.map_nil]
  refine List.Nodup.append hnd (List.nodup_singleton k) ?_
  intro x hx hx2
  rcases List.mem_singleton.mp hx2 with rfl
  exact hknot hx

/-- Key uniqueness of a fold of sets, for any key and value assignment. -/
theorem nodup_mapKeys_foldl {α β : Type} (key : α → ElementID) (val : α → β)
    (l : List α) (acc : SPDXMap β) (h : (mapKeys acc).Nodup) :
    (mapKeys (l.foldl (fun m x => mapSet m (key x) (val x)) acc)).Nodup := by
  induction l generalizing acc with
  | nil => simpa using h
  | cons x rest ih =>
    exact ih (mapSet acc (key x) (val x)) (nodup_mapKeys_mapSet acc (key x) (val x) h)

/-- A present key stays present across a fold of sets. -/
theorem isSome_mapGet_foldl {α β : Type} (key : α → ElementID) (val : α → β)
    (l : List α) (acc : SPDXMap β) (k : ElementID)
    (h : (mapGet acc k).isSome = true) :
    (mapGet (l.foldl (fun m x => mapSet m (key x) (val x)) acc) k).isSome = true := by
  induction l generalizing acc with
  | nil => simpa using h
  | cons x rest ih =>
    exact ih (mapSet acc (key x) (val x)) (isSome_mapGet_mapSet acc (key x) k (val x) h)

/-- After folding a list of elements into the map, every element's key is
present. -/
theorem isSome_mapGet_foldl_mem {α β : Type} (key : α → ElementID) (val : α → β)
    (l : List α) (acc : SPDXMap β) (a : α) (ha : a ∈ l) :
    (mapGet (l.foldl (fun m x => mapSet m (key x) (val x)) acc) (key a)).isSome = true := by
  induction l generalizing acc with
  | nil => cases ha
  | cons x rest ih =>
    rcases List.mem_cons.mp ha with rfl | hmem
    · exact isSome_mapGet_foldl key val rest (mapSet acc (key a) (val a)) (key a)
        (by simp [mapGet_mapSet_self])
    · exact ih (mapSet acc (key x) (val x)) hmem

/-- Looking up a path in the folded file map: owned paths map to their file
record, others fall through to the accumulator. -/
theorem mapGet_foldl_files (owned : List String) (acc : SPDXMap File2_2) (f : String) :
    mapGet (owned.foldl (fun files g => mapSet files g (spdxFile g)) acc) f =
      if f ∈ owned then some (spdxFile f) else mapGet acc f := by
  induction owned generalizing acc with
  | nil => simp
  | cons g rest ih =>
    by_cases hmem : f ∈ rest
    · simp [ih, hmem, List.mem_cons]
    · by_cases hg : f = g
      · subst hg
        simp [ih, hmem, mapGet_mapSet_self]
      · simp [ih, hmem, hg, mapGet_mapSet_ne acc g f (spdxFile g) hg]

/-- Claim C1: for every package, the declared-license classification of the
produced package record is exactly one of three outcomes: an empty license
list gives the literal NONE; otherwise only the first license string is
consulted, and a successful lookup gives the canonical identifier returned
while a failed lookup gives the literal NOASSERTION. -/
theorem declared_license_trichotomy (lookup : String → Option LicenseInfo) (p : Package) :
    (p.Licenses = [] ∧ (spdxPackage lookup p).PackageLicenseDeclared = "NONE") ∨
    (∃ l rest info, p.Licenses = l :: rest ∧ lookup l = some info ∧
      (spdxPackage lookup p).PackageLicenseDeclared = info.ID) ∨
    (∃ l rest, p.Licenses = l :: rest ∧ lookup l = none ∧
      (spdxPackage lookup p).PackageLicenseDeclared = "NOASSERTION") := by
  have hdecl : (spdxPackage lookup p).PackageLicenseDeclared = declaredLicense lookup p := rfl
  rcases hL : p.Licenses with _ | ⟨l, rest⟩
  · exact Or.inl ⟨rfl, by simp [hdecl, declaredLicense, hL]⟩
  · rcases hlook : lookup l with _ | info
    · exact Or.inr (Or.inr ⟨l, rest, rfl, hlook, by simp [hdecl, declaredLicense, hL, hlook]⟩)
    · exact Or.inr (Or.inl ⟨l, rest, info, rfl, hlook,
        by simp [hdecl, declaredLicense, hL, hlook]⟩)

/-- Claim C2: FilesAnalyzed is true exactly when the package metadata exposes
file ownership; when false the file map is empty; when true the file map has
one record per owned path, keyed by the path, and no record for any other
path. -/
theorem filesAnalyzed_iff_fileOwner (lookup : String → Option LicenseInfo) (p : Package) :
    ((spdxPackage lookup p).FilesAnalyzed = true ↔
      ∃ owned, p.Metadata = PkgMetadata.fileOwner owned) ∧
    ((spdxPackage lookup p).FilesAnalyzed = false → (spdxPackage lookup p).Files = []) ∧
    (∀ owned, p.Metadata = PkgMetadata.fileOwner owned →
      ∀ f, mapGet (spdxPackage lookup p).Files f =
        if f ∈ owned then some (spdxFile f) else none) := by
  have hFA : (spdxPackage lookup p).FilesAnalyzed = (packageFiles p).1 := rfl
  have hFi : (spdxPackage lookup p).Files = (packageFiles p).2 := rfl
  rcases hM : p.Metadata with owned | _
  · refine ⟨?_, ?_, ?_⟩
    · simp [hFA, packageFiles, hM]
    · intro hfalse
      rw [hFA] at hfalse
      simp [packageFiles, hM] at hfalse
    · intro owned2 hOwn f
      injection hOwn with hoeq
      subst hoeq
      rw [hFi]
      simpa [packageFiles, hM] using mapGet_foldl_files owned [] f
  · refine ⟨?_, ?_, ?_⟩
    · simp [hFA, packageFiles, hM]
    · intro _
      rw [hFi]
      simp [packageFiles, hM]
    · intro owned2 hOwn f
      cases hOwn

/-- Claim C2 witness at a package owning one file. -/
theorem filesAnalyzed_iff_fileOwner_witness :
    mapGet (spdxPackage (fun _ => none)
        ⟨"deb", "curl", "7.68", [], PkgMetadata.fileOwner ["/usr/bin/curl"]⟩).Files
      "/usr/bin/curl" =
    if "/usr/bin/curl" ∈ ["/usr/bin/curl"] then some (spdxFile "/usr/bin/curl") else none :=
  (filesAnalyzed_iff_fileOwner (fun _ => none)
    ⟨"deb", "curl", "7.68", [], PkgMetadata.fileOwner ["/usr/bin/curl"]⟩).2.2
    ["/usr/bin/curl"] rfl "/usr/bin/curl"

/-- Claim C3: the presentation call returns exactly the result of the terminal
save step, its error cases are exactly the save error cases, and even with a
lookup capability that always fails every catalog package still reaches the
document, so no assembly or projection step fails or skips packages. -/
theorem present_error_propagation (appName versionStr created : String)
    (srcMetadata : SourceMetadata) (lookup : String → Option LicenseInfo)
    (catalog : List Package) (save : Document2_2 → Except String Unit) :
    Present appName versionStr created srcMetadata lookup catalog save =
      save (spdxDocument appName versionStr created srcMetadata lookup catalog) ∧
    (∀ e, Present appName versionStr created srcMetadata lookup catalog save =
        Except.error e ↔
      save (spdxDocument appName versionStr created srcMetadata lookup catalog) =
        Except.error e) ∧
    (∀ p, p ∈ catalog →
      (mapGet (spdxDocument appName versionStr created srcMetadata lookup catalog).Packages
        (packageID p)).isSome = true) := by
  refine ⟨rfl, fun e => Iff.rfl, fun p hp => ?_⟩
  have hP : (spdxDocument appName versionStr created srcMetadata lookup catalog).Packages =
      packages lookup catalog := rfl
  rw [hP]
  exact isSome_mapGet_foldl_mem packageID (spdxPackage lookup) catalog [] p hp

/-- Claim C3 witness: a one-package catalog with an always-failing lookup still
yields a record for the package. -/
theorem present_error_propagation_witness :
    (mapGet (spdxDocument "syft" "0.1.0" "2026-10-11T00:00:00Z" ⟨⟨"img"⟩⟩ (fun _ => none)
        [⟨"deb", "curl", "7.68", ["bogus"], PkgMetadata.other⟩]).Packages
      (packageID ⟨"deb", "curl", "7.68", ["bogus"], PkgMetadata.other⟩)).isSome = true :=
  (present_error_propagation "syft" "0.1.0" "2026-10-11T00:00:00Z" ⟨⟨"img"⟩⟩ (fun _ => none)
    [⟨"deb", "curl", "7.68", ["bogus"], PkgMetadata.other⟩]
    (fun _ => Except.ok ())).2.2
    ⟨"deb", "curl", "7.68", ["bogus"], PkgMetadata.other⟩ (List.mem_singleton.mpr rfl)

/-- Claim C4: for every path owned by a package exposing file ownership, the
emitted file record is keyed by the path and carries the path verbatim as both
identifier and file name, NOASSERTION for concluded license, copyright and the
single-element license-info-in-file list, and empty checksum and optional
narrative fields. -/
theorem file_record_fields (lookup : String → Option LicenseInfo) (p : Package)
    (owned : List String) (f : String)
    (hOwn : p.Metadata = PkgMetadata.fileOwner owned) (hf : f ∈ owned) :
    mapGet (spdxPackage lookup p).Files f = some (spdxFile f) ∧
    (spdxFile f).FileSPDXIdentifier = f ∧
    (spdxFile f).FileName = f ∧
    (spdxFile f).LicenseConcluded = "NOASSERTION" ∧
    (spdxFile f).LicenseInfoInFile = ["NOASSERTION"] ∧
    (spdxFile f).FileCopyrightText = "NOASSERTION" ∧
    (spdxFile f).FileChecksumSHA1 = "" ∧
    (spdxFile f).FileChecksumSHA256 = "" ∧
    (spdxFile f).FileChecksumMD5 = "" ∧
    (spdxFile f).FileType = [] ∧
    (spdxFile f).LicenseComments = "" ∧
    (spdxFile f).FileComment = "" ∧
    (spdxFile f).FileNotice = "" ∧
    (spdxFile f).FileContributor = [] ∧
    (spdxFile f).FileAttributionTexts = [] ∧
    (spdxFile f).FileDependencies = [] ∧
    (spdxFile f).ArtifactOfProjects = [] ∧
    (spdxFile f).Snippets = [] := by
  refine ⟨?_, rfl, rfl, rfl, rfl, rfl, rfl, rfl, rfl, rfl, rfl, rfl, rfl, rfl, rfl, rfl,
    rfl, rfl⟩
  have hFi : (spdxPackage lookup p).Files = (packageFiles p).2 := rfl
  rw [hFi]
  simpa [packageFiles, hOwn, hf] using mapGet_foldl_files owned [] f

/-- Claim C4 witness at a concrete owned path. -/
theorem file_record_fields_witness :
    mapGet (spdxPackage (fun _ => none)
        ⟨"deb", "curl", "7.68", [], PkgMetadata.fileOwner ["/usr/bin/curl", "/etc/curl.conf"]⟩).Files
      "/etc/curl.conf" = some (spdxFile "/etc/curl.conf") ∧
    (spdxFile "/etc/curl.conf").FileSPDXIdentifier = "/etc/curl.conf" :=
  let h := file_record_fields (fun _ => none)
    ⟨"deb", "curl", "7.68", [], PkgMetadata.fileOwner ["/usr/bin/curl", "/etc/curl.conf"]⟩
    ["/usr/bin/curl", "/etc/curl.conf"] "/etc/curl.conf" rfl (by simp)
  ⟨h.1, h.2.1⟩

/-- Claim C5: the creator list of every produced document holds exactly one
organization creator, the fixed literal, and exactly one tool creator, whose
text is the application name joined to the build-time version string; the
creator list is therefore non-empty. -/
theorem creator_list (appName versionStr created : String) (srcMetadata : SourceMetadata)
    (lookup : String → Option LicenseInfo) (catalog : List Package) :
    (spdxDocument appName versionStr created srcMetadata lookup
        catalog).CreationInfo.CreatorOrganizations = ["Anchore, Inc"] ∧
    (spdxDocument appName versionStr created srcMetadata lookup
        catalog).CreationInfo.CreatorTools = [appName ++ "-" ++ versionStr] ∧
    (spdxDocument appName versionStr created srcMetadata lookup
        catalog).CreationInfo.CreatorOrganizations.length = 1 ∧
    (spdxDocument appName versionStr created srcMetadata lookup
        catalog).CreationInfo.CreatorTools.length = 1 ∧
    (spdxDocument appName versionStr created srcMetadata lookup
        catalog).CreationInfo.CreatorOrganizations ++
      (spdxDocument appName versionStr created srcMetadata lookup
        catalog).CreationInfo.CreatorTools ≠ [] := by
  refine ⟨rfl, rfl, rfl, rfl, ?_⟩
  simp [spdxDocument]

/-- Claim C5 witness at concrete creation inputs. -/
theorem creator_list_witness :
    (spdxDocument "syft" "0.1.0" "2026-10-11T00:00:00Z" ⟨⟨"img"⟩⟩ (fun _ => none)
        []).CreationInfo.CreatorOrganizations = ["Anchore, Inc"] ∧
    (spdxDocument "syft" "0.1.0" "2026-10-11T00:00:00Z" ⟨⟨"img"⟩⟩ (fun _ => none)
        []).CreationInfo.CreatorTools = ["syft" ++ "-" ++ "0.1.0"] ∧
    (spdxDocument "syft" "0.1.0" "2026-10-11T00:00:00Z" ⟨⟨"img"⟩⟩ (fun _ => none)
        []).CreationInfo.CreatorOrganizations.length = 1 ∧
    (spdxDocument "syft" "0.1.0" "2026-10-11T00:00:00Z" ⟨⟨"img"⟩⟩ (fun _ => none)
        []).CreationInfo.CreatorTools.length = 1 ∧
    (spdxDocument "syft" "0.1.0" "2026-10-11T00:00:00Z" ⟨⟨"img"⟩⟩ (fun _ => none)
        []).CreationInfo.CreatorOrganizations ++
      (spdxDocument "syft" "0.1.0" "2026-10-11T00:00:00Z" ⟨⟨"img"⟩⟩ (fun _ => none)
        []).CreationInfo.CreatorTools ≠ [] :=
  creator_list "syft" "0.1.0" "2026-10-11T00:00:00Z" ⟨⟨"img"⟩⟩ (fun _ => none) []

/-- Claim C6: the synthesized package record identifier is the literal Package-
followed by the type tag, a hyphen and the name; identifiers are not
disambiguated, so packages agreeing on type and name get equal identifiers. -/
theorem packageID_synthesis (p q : Package) (htyp : p.typ = q.typ)
    (hname : p.Name = q.Name) :
    packageID p = "Package-" ++ p.typ ++ "-" ++ p.Name ∧ packageID p = packageID q :=
  ⟨rfl, by simp [packageID, htyp, hname]⟩

/-- Claim C6 witness: two distinct packages sharing type and name collide. -/
theorem packageID_synthesis_witness :
    packageID ⟨"deb", "curl", "7.68", [], PkgMetadata.other⟩ =
      "Package-" ++ "deb" ++ "-" ++ "curl" ∧
    packageID ⟨"deb", "curl", "7.68", [], PkgMetadata.other⟩ =
      packageID ⟨"deb", "curl", "8.01", ["MIT"], PkgMetadata.other⟩ :=
  packageID_synthesis ⟨"deb", "curl", "7.68", [], PkgMetadata.other⟩
    ⟨"deb", "curl", "8.01", ["MIT"], PkgMetadata.other⟩ rfl rfl

/-- Claim C7: every package record carries NOASSERTION as download location and
copyright text, an empty verification code even when files are analyzed, and
empty SHA1, SHA256 and MD5 checksum fields. -/
theorem package_sentinel_fields (lookup : String → Option LicenseInfo) (p : Package) :
    (spdxPackage lookup p).PackageDownloadLocation = "NOASSERTION" ∧
    (spdxPackage lookup p).PackageCopyrightText = "NOASSERTION" ∧
    (spdxPackage lookup p).PackageVerificationCode = "" ∧
    (spdxPackage lookup p).PackageChecksumSHA1 = "" ∧
    (spdxPackage lookup p).PackageChecksumSHA256 = "" ∧
    (spdxPackage lookup p).PackageChecksumMD5 = "" :=
  ⟨rfl, rfl, rfl, rfl, rfl, rfl⟩

/-- Claim C8: two runs over the same catalog and source metadata, differing
only in the clock reading, produce documents equal in every field except the
creation timestamp. -/
theorem present_deterministic_modulo_timestamp (appName versionStr t1 t2 : String)
    (srcMetadata : SourceMetadata) (lookup : String → Option LicenseInfo)
    (catalog : List Package) :
    spdxDocument appName versionStr t1 srcMetadata lookup catalog =
      withCreated (spdxDocument appName versionStr t2 srcMetadata lookup catalog) t1 :=
  rfl

/-- Claim C9: the concluded-license field of every package record is the
literal NOASSERTION regardless of the license list or the lookup outcome,
while the three-way classification goes to the declared-license field. -/
theorem concluded_vs_declared (lookup : String → Option LicenseInfo) (p : Package) :
    (spdxPackage lookup p).PackageLicenseConcluded = "NOASSERTION" ∧
    (spdxPackage lookup p).PackageLicenseDeclared = declaredLicense lookup p :=
  ⟨rfl, rfl⟩

/-- Claim C10: both record maps are keyed by identifier with unique keys, so at
most one record exists per identifier, and the later-enumerated entry wins: a
package appended after a colliding one replaces it, and a path owned again at
the end of the owned list maps to the record of the later occurrence. -/
theorem identifier_keyed_replacement (lookup : String → Option LicenseInfo) :
    (∀ catalog : List Package, (mapKeys (packages lookup catalog)).Nodup) ∧
    (∀ (catalog : List Package) (p : Package),
      mapGet (packages lookup (catalog ++ [p])) (packageID p) =
        some (spdxPackage lookup p)) ∧
    (∀ (typ name ver : String) (lics owned : List String) (f : String),
      mapGet (packageFiles ⟨typ, name, ver, lics,
          PkgMetadata.fileOwner (owned ++ [f])⟩).2 f = some (spdxFile f)) ∧
    (∀ p : Package, (mapKeys (spdxPackage lookup p).Files).Nodup) := by
  refine ⟨?_, ?_, ?_, ?_⟩
  · intro catalog
    exact nodup_mapKeys_foldl packageID (spdxPackage lookup) catalog []
      (by simp [mapKeys])
  · intro catalog p
    have hsplit : packages lookup (catalog ++ [p]) =
        mapSet (packages lookup catalog) (packageID p) (spdxPackage lookup p) := by
      simp [packages, List.foldl_append]
    rw [hsplit, mapGet_mapSet_self]
  · intro typ name ver lics owned f
    simp only [packageFiles, List.foldl_append, List.foldl_cons, List.foldl_nil]
    exact mapGet_mapSet_self _ f (spdxFile f)
  · intro p
    have hFi : (spdxPackage lookup p).Files = (packageFiles p).2 := rfl
    rw [hFi]
    rcases hM : p.Metadata with owned | _
    · simpa [packageFiles, hM] using
        nodup_mapKeys_foldl (fun g => g) spdxFile owned [] (by simp [mapKeys])
    · simp [packageFiles, hM, mapKeys]

end SpdxPresenter
